import Mathlib

/-!
Shallow embedding of `src/app.py` (AI Meme & Poster Creator).

The program has four parts, all in one file:
  * `generate_caption` (app.py lines 35-58): prompt construction, one model
    call, post-processing, error handling;
  * `create_image_with_text` (app.py lines 61-106): template opening, font
    loading, average-glyph-width word wrapping via `textwrap.fill`, outlined
    centered text drawing;
  * the module-level template listing (app.py lines 114-122);
  * the Streamlit shell's generate branch (app.py lines 143-166).

Modelling conventions.  The opaque text-generation pipeline is a parameter
`model : String → Except String String` (raises, or returns the raw generated
text).  PIL is an environment `RenderEnv` giving each path's image dimensions,
whether the font asset loads, and the measurement functions `getbbox`
provides.  Images are a width, a height and the list of `draw.text` calls
performed on them.  Python exceptions are the `Except` monad with handlers
translated clause by clause.  Python string methods (`replace`, `strip`,
`upper`, `endswith`, substring `in`) are given executable structural
implementations over character lists with Python's exact semantics.

Numeric conventions.  Python computes `chars_per_line` and the text position
with float arithmetic over values that are exact small rationals:
`avg = total/26`, `chars_per_line = int(w * 0.9 / avg)` and
`position_x = (w - text_width) / 2`.  The model computes these exactly:
`chars_per_line` is `(26 * 9 * w) / (10 * total)` by natural division, which
is the floor of `(w * 0.9) / (total / 26)` (proved in `charsPerLine_eq_floor`
below), and positions are stored DOUBLED in `ℤ` (`xTwice` is twice the pixel
x-coordinate) so that the half-integer `(w - text_width) / 2` stays exact;
`DrawOp.xVal`/`DrawOp.yVal` recover the rational pixel coordinates.

`textwrap.fill` (stdlib, default options) is modelled by a direct translation
of `_wrap_chunks`: the text's maximal space / non-space runs are the chunks
(whitespace chunks kept, their lengths counted toward the line budget), lines
fill greedily chunk by chunk with `drop_whitespace`'s leading- and
trailing-chunk deletions, and a chunk longer than the whole width is broken
at Python's `space_left` (`break_long_words=True`).  The translation is
character-exact on the `wrapExact` domain — ASCII captions without
hyphen-minus, tab, vertical-tab or form-feed — where `wordsep_re`'s
hyphen/em-dash alternatives, `break_on_hyphens` and tab expansion provably
never apply; the wrap-content claim (C6) is scoped to that domain.  The fuel
argument strictly exceeds the number of loop iterations Python would perform.
-/

/-- Python exception kinds that `app.py` can raise or handle. -/
inductive PyExn
  | fileNotFound
  | ioError
  | valueError
  | zeroDivision
  | other
deriving DecidableEq, Repr

/-- Result of `generate_caption` together with its observable effects: the
number of invocations of the text-generation capability and the error banners
shown via `st.error`. -/
structure GenResult where
  caption : String
  modelCalls : Nat
  errorsShown : List String
deriving DecidableEq, Repr

/-- One pass of Python's `s.replace(pat, "")` over the character list:
scan left to right, remove each non-overlapping occurrence of `pat`, and
continue scanning right after the removed occurrence.  `fuel` bounds the
iterations; each step consumes at least one character when `pat` is
nonempty. -/
def removeOccsAux (pat : List Char) : Nat → List Char → List Char
  | _, [] => []
  | 0, s => s
  | fuel+1, c :: rest =>
    if pat.isPrefixOf (c :: rest) then removeOccsAux pat fuel ((c :: rest).drop pat.length)
    else c :: removeOccsAux pat fuel rest

/-- Python's `s.replace(pat, "")` (all occurrences, one left-to-right pass;
an empty pattern leaves the string unchanged, which never arises here). -/
def removeOccs (s pat : String) : String :=
  if pat.data.isEmpty then s else ⟨removeOccsAux pat.data s.data.length s.data⟩

/-- Python's `s.strip()`: drop whitespace from both ends. -/
def pyStrip (s : String) : String :=
  ⟨((s.data.dropWhile Char.isWhitespace).reverse.dropWhile Char.isWhitespace).reverse⟩

/-- Python's `s.upper()` (restricted to characters whose uppercasing is the
ASCII one, which covers the captions at issue). -/
def pyUpper (s : String) : String :=
  ⟨s.data.map Char.toUpper⟩

/-- app.py line 41: the instructional prompt wrapped around the topic. -/
def fullPrompt (topic : String) : String :=
  "A short, funny meme caption for an image, on the topic of " ++ topic ++ ":"

/-- app.py lines 35-58, `generate_caption(prompt_text)`.  `model` is the
`text_generator` pipeline: it either returns the raw generated text of the
single returned sequence (`sequences[0]['generated_text']`) or raises
(`Except.error` carrying the exception message).  Line 54 is
`raw.replace(full_prompt, "").strip()`; line 55 substitutes the fallback for
an empty result; lines 56-58 catch any exception, show a banner and return
the fixed error string. -/
def generate_caption (model : String → Except String String) (prompt_text : String) : GenResult :=
  if prompt_text = "" then
    { caption := "Please enter a topic!", modelCalls := 0, errorsShown := [] }
  else
    match model (fullPrompt prompt_text) with
    | Except.ok raw =>
      { caption :=
          if pyStrip (removeOccs raw (fullPrompt prompt_text)) = "" then
            "AI could not generate a caption."
          else pyStrip (removeOccs raw (fullPrompt prompt_text)),
        modelCalls := 1, errorsShown := [] }
    | Except.error e =>
      { caption := "Error generating text.", modelCalls := 1,
        errorsShown := ["Error during AI caption generation: " ++ e] }

/-- `pat` occurs as a contiguous segment of the character list. -/
def hasSeg (pat : List Char) : List Char → Bool
  | [] => pat.isEmpty
  | c :: rest => pat.isPrefixOf (c :: rest) || hasSeg pat rest

/-- Python's `pat in s` substring containment on strings. -/
def strContains (s pat : String) : Bool :=
  hasSeg pat.data s.data

/-- Captions on which the `textwrap` model is character-exact: ASCII only
(so `str.upper` and the regex whitespace class agree with the model), no
hyphen-minus (so `break_on_hyphens` and `wordsep_re`'s hyphenated-compound
and em-dash chunking never apply), no tab (`expand_tabs` is the identity)
and no vertical-tab or form-feed (`replace_whitespace` then maps exactly the
whitespace characters the model maps). -/
def wrapExactChar (c : Char) : Bool :=
  c.toNat < 128 && !(c == '-') && !(c == '\t') && !(c == '\x0b') && !(c == '\x0c')

/-- The caption domain on which the `textwrap` model below is exact. -/
def wrapExact (s : String) : Bool := s.data.all wrapExactChar

/-- `textwrap`'s `replace_whitespace` step: every whitespace character
becomes a space (on the `wrapExact` domain this maps exactly the characters
Python's `unicode_whitespace_trans` maps). -/
def normalizeWs (s : String) : String :=
  ⟨s.data.map (fun c => if c.isWhitespace then ' ' else c)⟩

/-- Python's `chunk.strip() == ''` test on a chunk (after
`replace_whitespace` every whitespace character is a space). -/
def isWsChunk (c : String) : Bool := c.data.all (fun ch => ch == ' ')

/-- Maximal runs of spaces / non-spaces (`cur` holds the current run
reversed): the chunks `textwrap`'s `wordsep_re` produces on the `wrapExact`
domain, where the hyphen and em-dash alternatives never match, leaving
whitespace runs and whitespace-free word runs. -/
def runsAux : List Char → List Char → List (List Char)
  | cur, [] => if cur.isEmpty then [] else [cur.reverse]
  | cur, c :: rest =>
    match cur with
    | [] => runsAux [c] rest
    | d :: _ =>
      if (c == ' ') == (d == ' ') then runsAux (c :: cur) rest
      else cur.reverse :: runsAux [c] rest

/-- `textwrap`'s `_munge_whitespace` + `_split_chunks`: whitespace characters
become spaces, then the text splits into its maximal space / non-space runs
(all nonempty, mirroring Python's filtering of empty regex fields). -/
def chunksOf (s : String) : List String :=
  (runsAux [] (normalizeWs s).data).map (fun cs => (⟨cs⟩ : String))

/-- Python `chunk[:n]` by code points. -/
def strTake (s : String) (n : Nat) : String := ⟨s.data.take n⟩

/-- Python `chunk[n:]` by code points. -/
def strDrop (s : String) (n : Nat) : String := ⟨s.data.drop n⟩

/-- Python `''.join(cur_line)`. -/
def joinStr : List String → String
  | [] => ""
  | c :: cs => c ++ joinStr cs

/-- The inner `while chunks:` loop of `textwrap._wrap_chunks`: pop chunks
onto the current line while the accumulated length stays within the width;
returns the line chunks, the accumulated length and the remaining chunks. -/
def takeChunks (width : Nat) : Nat → List String → List String × Nat × List String
  | curLen, [] => ([], curLen, [])
  | curLen, c :: cs =>
    if curLen + c.length ≤ width then
      (c :: (takeChunks width (curLen + c.length) cs).1,
       (takeChunks width (curLen + c.length) cs).2.1,
       (takeChunks width (curLen + c.length) cs).2.2)
    else ([], curLen, c :: cs)

/-- `drop_whitespace`'s end-of-line step: `if cur_line and
cur_line[-1].strip() == '': del cur_line[-1]` (one trailing chunk only). -/
def dropTrailingWs (line : List String) : List String :=
  match line.getLast? with
  | none => line
  | some l => if isWsChunk l then line.dropLast else line

/-- `drop_whitespace`'s start-of-line step: on a continuation line
(`started`, Python's `lines` nonempty) a leading whitespace chunk is
deleted. -/
def dropLeadWs (started : Bool) : List String → List String
  | [] => []
  | c :: cs => if started && isWsChunk c then cs else c :: cs

/-- `_handle_long_word` applied to an inner-loop result: when the next chunk
is longer than the whole width (`break_long_words=True`; on the `wrapExact`
domain there is no hyphen to break at), its first `space_left` characters
join the line and the remainder becomes the next chunk, where Python sets
`space_left` to `width - cur_len`, or 1 when `width < 1`. -/
def longBreak (width : Nat) (t : List String × Nat × List String) : List String × List String :=
  match t.2.2 with
  | [] => (t.1, [])
  | c :: cs =>
    if width < c.length then
      (t.1 ++ [strTake c (if width < 1 then 1 else width - t.2.1)],
       strDrop c (if width < 1 then 1 else width - t.2.1) :: cs)
    else (t.1, c :: cs)

/-- One iteration of `_wrap_chunks`' outer loop, after the leading-whitespace
drop: the inner take loop, then `_handle_long_word`, then the
trailing-whitespace drop.  Returns the finished line's chunks and the
remaining chunks. -/
def lineCore (width : Nat) (chunks1 : List String) : List String × List String :=
  (dropTrailingWs (longBreak width (takeChunks width 0 chunks1)).1,
   (longBreak width (takeChunks width 0 chunks1)).2)

/-- The outer loop of `_wrap_chunks` (defaults: `drop_whitespace=True`,
`break_long_words=True`, no `max_lines`, empty indents): while chunks remain,
build a line and append it when nonempty (`if cur_line:
lines.append(indent + ''.join(cur_line))`).  `started` records whether a
line has been emitted; `fuel` bounds the iterations, each of which consumes
a chunk or at least one character. -/
def wrapLoop (width : Nat) : Nat → Bool → List String → List String
  | 0, _, _ => []
  | _+1, _, [] => []
  | fuel+1, started, c :: cs =>
    let r := lineCore width (dropLeadWs started (c :: cs))
    if r.1.isEmpty then wrapLoop width fuel started r.2
    else joinStr r.1 :: wrapLoop width fuel true r.2

/-- `textwrap.fill(s, width)`: munge and chunk the text, wrap, and join the
lines with newlines.  Exact for `wrapExact` captions; the fuel strictly
exceeds the number of loop iterations possible on this input. -/
def textwrapFill (s : String) (width : Nat) : String :=
  String.intercalate "\n" (wrapLoop width (2 * s.length + 2 * (chunksOf s).length + 4) false (chunksOf s))

/-- One `draw.text` call recorded on an image.  Coordinates are stored
doubled (`xTwice` is twice the pixel x-coordinate, an exact integer since
every position in app.py is a half-integer); `xVal`/`yVal` below recover the
pixel coordinates. -/
structure DrawOp where
  xTwice : ℤ
  yTwice : ℤ
  text : String
  fontSize : Nat
  fill : String
  align : String
deriving DecidableEq, Repr

/-- The pixel x-coordinate of a drawing operation. -/
def DrawOp.xVal (op : DrawOp) : ℚ := (op.xTwice : ℚ) / 2

/-- The pixel y-coordinate of a drawing operation. -/
def DrawOp.yVal (op : DrawOp) : ℚ := (op.yTwice : ℚ) / 2

/-- A PIL image: its pixel dimensions and the text-drawing operations
performed on it (the template's pixel raster itself is opaque). -/
structure PILImage where
  width : Nat
  height : Nat
  ops : List DrawOp
deriving DecidableEq, Repr

/-- Result of `create_image_with_text` together with the error banners shown
via `st.error`. -/
structure RenderOutcome where
  image : Option PILImage
  errorsShown : List String
deriving DecidableEq, Repr

/-- The PIL-side environment: `templateDims path` is `Image.open`'s result
(dimensions, or `none` meaning `FileNotFoundError`); `fontOk` says whether
`ImageFont.truetype(FONT_FILE, size)` succeeds; `glyphW size c` is
`font.getbbox(c)[2]` at that font size; `textW size s` is the width
`bbox[2] - bbox[0]` that `draw.textbbox((0,0), s, font)` reports. -/
structure RenderEnv where
  templateDims : String → Option (Nat × Nat)
  fontOk : Bool
  glyphW : Nat → Char → Nat
  textW : Nat → String → Nat

/-- app.py line 30: the fixed font asset path. -/
def FONT_FILE : String := "NotoSans-VariableFont_wdth,wght.ttf"

/-- The 26 uppercase Latin letters measured on app.py line 80. -/
def upperLetters : List Char := "ABCDEFGHIJKLMNOPQRSTUVWXYZ".data

/-- app.py line 76 error banner (apostrophes elided). -/
def fontErrMsg : String :=
  "Font file not found. Please ensure it is in your project folder."

/-- app.py line 105 error banner. -/
def genericImgErrMsg : String := "An error occurred during image creation."

/-- app.py line 70: `font_size = int(image_width / 18)`. -/
def fontSizeOf (w : Nat) : Nat := w / 18

/-- app.py line 80, the summation `sum(font.getbbox(char)[2] for char in
'ABCDEFGHIJKLMNOPQRSTUVWXYZ')`; the average glyph width is this over 26. -/
def totalGlyphW (env : RenderEnv) (w : Nat) : Nat :=
  (upperLetters.map (env.glyphW (fontSizeOf w))).sum

/-- app.py line 81: `chars_per_line = int(image_width * 0.9 /
avg_char_width)` with `avg_char_width = total / 26`.  The value is
nonnegative, so the `int` truncation is a floor, and
`⌊(w * 9/10) / (total/26)⌋ = (26 * 9 * w) / (10 * total)` exactly by natural
division (`charsPerLine_eq_floor` below proves this identity). -/
def charsPerLine (env : RenderEnv) (w : Nat) : Nat :=
  (26 * 9 * w) / (10 * totalGlyphW env w)

/-- app.py line 82: `wrapped_text = textwrap.fill(top_text.upper(),
width=chars_per_line)`. -/
def wrappedTextOf (env : RenderEnv) (w : Nat) (t : String) : String :=
  textwrapFill (pyUpper t) (charsPerLine env w)

/-- app.py lines 85-89: twice the horizontal centering offset
`position_x = (image_width - text_width) / 2`, kept doubled so it is an
exact integer. -/
def positionXTwice (env : RenderEnv) (w : Nat) (t : String) : ℤ :=
  (w : ℤ) - (env.textW (fontSizeOf w) (wrappedTextOf env w t) : ℤ)

/-- app.py lines 93-98: the outline pass — four black copies offset by the
pairs (-2,-2), (-2,2), (2,-2), (2,2) from `(position_x, 15)` — followed by
the main white pass at `(position_x, 15)`, all with `align="center"`.
Coordinates are doubled, so an offset of `d` pixels adds `2 * d` and the
vertical position 15 is stored as `2 * 15`. -/
def drawOps (position_x_twice : ℤ) (wrapped_text : String) (font_size : Nat) : List DrawOp :=
  (([((-2 : ℤ), (-2 : ℤ)), ((-2 : ℤ), (2 : ℤ)), ((2 : ℤ), (-2 : ℤ)), ((2 : ℤ), (2 : ℤ))]).map
    (fun d =>
      { xTwice := position_x_twice + 2 * d.1, yTwice := 2 * 15 + 2 * d.2, text := wrapped_text,
        fontSize := font_size, fill := "black", align := "center" }))
  ++ [{ xTwice := position_x_twice, yTwice := 2 * 15, text := wrapped_text,
        fontSize := font_size, fill := "white", align := "center" }]

/-- app.py lines 63-100, the body of `create_image_with_text` before its
exception handlers.  `Except.error` is an exception escaping the body:
`FileNotFoundError` from `Image.open`; `ZeroDivisionError` when every
measured glyph width is 0 (float division by `0.0` raises in Python);
`ValueError` from `textwrap.fill` when `chars_per_line` is 0.  The inner
`try/except IOError` around the font load is translated in place: a missing
font shows the banner and returns `None` (an `Except.ok` outcome, not an
escaping exception). -/
def renderBody (env : RenderEnv) (template_path top_text : String) : Except PyExn RenderOutcome :=
  match env.templateDims template_path with
  | none => Except.error PyExn.fileNotFound
  | some (w, h) =>
    if env.fontOk = false then
      Except.ok { image := none, errorsShown := [fontErrMsg] }
    else if totalGlyphW env w = 0 then
      Except.error PyExn.zeroDivision
    else if charsPerLine env w = 0 then
      Except.error PyExn.valueError
    else
      Except.ok
        { image := some
            { width := w, height := h,
              ops := drawOps (positionXTwice env w top_text) (wrappedTextOf env w top_text) (fontSizeOf w) },
          errorsShown := [] }

/-- app.py lines 61-106, `create_image_with_text(template_path, top_text)`:
the body wrapped in its two exception handlers, `except FileNotFoundError`
(line 101) and the catch-all `except Exception` (line 104), each showing a
banner and returning `None`.  The result is `Except`-typed so that "no
exception propagates to the caller" is a provable statement rather than a
typing convention. -/
def create_image_with_text (env : RenderEnv) (template_path top_text : String) : Except PyExn RenderOutcome :=
  match renderBody env template_path top_text with
  | Except.ok r => Except.ok r
  | Except.error PyExn.fileNotFound =>
    Except.ok { image := none, errorsShown := ["Template image not found at " ++ template_path] }
  | Except.error _ =>
    Except.ok { image := none, errorsShown := [genericImgErrMsg] }

/-- Startup failures of the module-level template listing. -/
inductive StartupError
  | directoryNotFound
  | catalogEmpty
deriving DecidableEq, Repr

/-- app.py line 116 filter: `f.endswith(('png', 'jpg', 'jpeg'))` — a
case-sensitive suffix match, with no dot required before the suffix. -/
def isTemplateFile (f : String) : Bool :=
  ("png".data.isSuffixOf f.data) || ("jpg".data.isSuffixOf f.data) || ("jpeg".data.isSuffixOf f.data)

/-- app.py lines 114-122: the module-level template listing.  `listing` is
`os.listdir(TEMPLATE_DIR)`'s result, `none` when the directory is absent
(`FileNotFoundError`).  An empty filtered list or a missing directory shows
a banner and calls `st.stop()`, modelled as the two fatal `StartupError`s. -/
def list_templates (listing : Option (List String)) : Except StartupError (List String) :=
  match listing with
  | none => Except.error StartupError.directoryNotFound
  | some fs =>
    if (fs.filter isTemplateFile).isEmpty then Except.error StartupError.catalogEmpty
    else Except.ok (fs.filter isTemplateFile)

/-- Observable outcome of one press of the generate button. -/
structure ShellResult where
  templateDisplayed : Bool
  rendererInvoked : Bool
  displayedMeme : Option PILImage
  downloadOffered : Bool
  messages : List String
deriving DecidableEq, Repr

/-- app.py lines 135-166: the shell's behaviour on one button press.  Column
1 always displays the original template (`templateDisplayed`).  The gate on
line 149 is `if caption and "Error" not in caption:`; when it passes, the
renderer runs and a produced image is displayed and offered for download,
while a `None` render adds the line 164 warning; when the gate fails, the
caption itself is shown via `st.error` (line 166) and the renderer is never
invoked. -/
def on_generate (model : String → Except String String) (env : RenderEnv)
    (template_path topic : String) : ShellResult :=
  if ((generate_caption model topic).caption != "") &&
      !(strContains (generate_caption model topic).caption "Error") then
    match create_image_with_text env template_path (generate_caption model topic).caption with
    | Except.ok rr =>
      match rr.image with
      | some img =>
        { templateDisplayed := true, rendererInvoked := true, displayedMeme := some img,
          downloadOffered := true,
          messages := (generate_caption model topic).errorsShown ++ rr.errorsShown }
      | none =>
        { templateDisplayed := true, rendererInvoked := true, displayedMeme := none,
          downloadOffered := false,
          messages := (generate_caption model topic).errorsShown ++ rr.errorsShown
            ++ ["Could not generate the final image."] }
    | Except.error _ =>
      { templateDisplayed := true, rendererInvoked := true, displayedMeme := none,
        downloadOffered := false,
        messages := (generate_caption model topic).errorsShown }
  else
    { templateDisplayed := true, rendererInvoked := false, displayedMeme := none,
      downloadOffered := false,
      messages := (generate_caption model topic).errorsShown
        ++ [(generate_caption model topic).caption] }

/-- The text of the final (main, white) drawing operation of a successful
render, if any. -/
def mainText (r : Except PyExn RenderOutcome) : Option String :=
  match r with
  | Except.ok rr =>
    match rr.image with
    | some img => (img.ops.getLast?).map DrawOp.text
    | none => none
  | Except.error _ => none

/-- The spec's own wrapping algorithm, stated from its words ("standard
greedy line-fill: accumulate words onto the current line while it fits, else
start a new line" — whole words only, never broken), for comparison with the
code's `textwrapFill`. -/
def specGreedyAux (width : Nat) (cur : String) (curLen : Nat) : List String → List String
  | [] => [cur]
  | w :: ws =>
    if curLen + 1 + w.length ≤ width then
      specGreedyAux width (cur ++ " " ++ w) (curLen + 1 + w.length) ws
    else cur :: specGreedyAux width w w.length ws

/-- The spec's greedy whole-word wrap over a word list. -/
def specGreedyWrap (width : Nat) : List String → List String
  | [] => []
  | w :: ws => specGreedyAux width w w.length ws

/-- Word-level mirror of `takeChunks` on single-space-separated words: take
words onto a line already `curLen` long, one separating space each; returns
the taken words, the final length and the remaining words. -/
def lineWords (width : Nat) : Nat → List String → List String × Nat × List String
  | curLen, [] => ([], curLen, [])
  | curLen, w :: ws =>
    if curLen + 1 + w.length ≤ width then
      (w :: (lineWords width (curLen + 1 + w.length) ws).1,
       (lineWords width (curLen + 1 + w.length) ws).2.1,
       (lineWords width (curLen + 1 + w.length) ws).2.2)
    else ([], curLen, w :: ws)

/-- The chunk rendering of words taken after a line's first word: a space
chunk before each word. -/
def glueChunks : List String → List String
  | [] => []
  | w :: ws => " " :: w :: glueChunks ws

/-- The string rendering of words taken after a line's first word. -/
def glueStr : List String → String
  | [] => ""
  | w :: ws => " " ++ (w ++ glueStr ws)

/-- The line `specGreedyAux` builds and the words it leaves, computed in one
pass (used to relate the spec wrap to the chunk loop). -/
def greedyTake (width : Nat) : String → Nat → List String → String × List String
  | cur, _, [] => (cur, [])
  | cur, curLen, w :: ws =>
    if curLen + 1 + w.length ≤ width then
      greedyTake width (cur ++ " " ++ w) (curLen + 1 + w.length) ws
    else (cur, w :: ws)

/-- Re-assembles a `lineWords` result into the chunk-level `takeChunks`
result on the corresponding interspersed chunk list: the taken words glued
with their leading spaces, plus the trailing space chunk when it still fit
on the line, and the remaining chunks. -/
def contAssemble (width : Nat) (r : List String × Nat × List String) : List String × Nat × List String :=
  match r.2.2 with
  | [] => (glueChunks r.1, r.2.1, [])
  | _ :: _ =>
    if r.2.1 + 1 ≤ width then
      (glueChunks r.1 ++ [" "], r.2.1 + 1, List.intersperse " " r.2.2)
    else (glueChunks r.1, r.2.1, " " :: List.intersperse " " r.2.2)

/-- Chopping a single over-long whitespace-free chunk into width-sized
pieces, as `_handle_long_word` does on a fresh line (fuel-indexed). -/
def chopAux (width : Nat) : Nat → String → List String
  | 0, cw => if cw.data.isEmpty then [] else [cw]
  | fuel+1, cw =>
    if cw.length ≤ width then (if cw.data.isEmpty then [] else [cw])
    else strTake cw width :: chopAux width fuel (strDrop cw width)

/-- The width-sized pieces of a single over-long chunk. -/
def chopPieces (width : Nat) (cw : String) : List String := chopAux width cw.length cw

/-! ### Concrete environments used by witnesses and counterexamples -/

/-- A 300x200 template at "t.png", a working font, every glyph 10 wide, every
text block 50 wide: `font_size = 16`, `chars_per_line = 27`. -/
def envA : RenderEnv :=
  { templateDims := fun p => if p = "t.png" then some (300, 200) else none,
    fontOk := true, glyphW := fun _ _ => 10, textW := fun _ _ => 50 }

/-- A 100x80 template at "t.png", a working font, every glyph 18 wide:
`font_size = 5`, `chars_per_line = 5`. -/
def envB : RenderEnv :=
  { templateDims := fun p => if p = "t.png" then some (100, 80) else none,
    fontOk := true, glyphW := fun _ _ => 18, textW := fun _ _ => 30 }

/-- A 40x40 template at every path, with a MISSING font asset. -/
def envC : RenderEnv :=
  { templateDims := fun _ => some (40, 40), fontOk := false,
    glyphW := fun _ _ => 1, textW := fun _ _ => 1 }

/-! ### Helper lemmas -/

/-- The `int(image_width * 0.9 / avg_char_width)` of app.py line 81, written
with exact rational arithmetic, is the natural division `charsPerLine`
computes (provided some glyph has nonzero width, so that the division is not
the Python `ZeroDivisionError` case). -/
lemma charsPerLine_eq_floor (env : RenderEnv) (w : Nat) (h : totalGlyphW env w ≠ 0) :
    (charsPerLine env w : ℤ) =
      ⌊((w : ℚ) * (9 / 10)) / ((totalGlyphW env w : ℚ) / 26)⌋ := by
  have hT : ((totalGlyphW env w : ℚ)) ≠ 0 := Nat.cast_ne_zero.mpr h
  have h1 : ((w : ℚ) * (9 / 10)) / ((totalGlyphW env w : ℚ) / 26)
      = (((26 * 9 * w : ℕ) : ℤ) : ℚ) / (((10 * totalGlyphW env w : ℕ) : ℚ)) := by
    push_cast
    field_simp
    ring
  rw [h1, Rat.floor_intCast_div_natCast]
  unfold charsPerLine
  rw [Int.natCast_div]

/-- Unfolding `renderBody` once the template's dimensions are known. -/
lemma renderBody_cases (env : RenderEnv) (p t : String) (w h : Nat)
    (hd : env.templateDims p = some (w, h)) :
    renderBody env p t =
      (if env.fontOk = false then
        Except.ok { image := none, errorsShown := [fontErrMsg] }
      else if totalGlyphW env w = 0 then
        Except.error PyExn.zeroDivision
      else if charsPerLine env w = 0 then
        Except.error PyExn.valueError
      else
        Except.ok
          { image := some
              { width := w, height := h,
                ops := drawOps (positionXTwice env w t) (wrappedTextOf env w t) (fontSizeOf w) },
            errorsShown := [] }) := by
  unfold renderBody
  rw [hd]

/-- Unfolding `create_image_with_text` once the template's dimensions are
known: each internal failure is caught and becomes a `None` outcome. -/
lemma create_cases (env : RenderEnv) (p t : String) (w h : Nat)
    (hd : env.templateDims p = some (w, h)) :
    create_image_with_text env p t =
      (if env.fontOk = false then
        Except.ok { image := none, errorsShown := [fontErrMsg] }
      else if totalGlyphW env w = 0 then
        Except.ok { image := none, errorsShown := [genericImgErrMsg] }
      else if charsPerLine env w = 0 then
        Except.ok { image := none, errorsShown := [genericImgErrMsg] }
      else
        Except.ok
          { image := some
              { width := w, height := h,
                ops := drawOps (positionXTwice env w t) (wrappedTextOf env w t) (fontSizeOf w) },
            errorsShown := [] }) := by
  unfold create_image_with_text
  rw [renderBody_cases env p t w h hd]
  by_cases hf : env.fontOk = false <;>
    by_cases h0 : totalGlyphW env w = 0 <;>
      by_cases h1 : charsPerLine env w = 0 <;>
        simp [hf, h0, h1]

/-- Inversion for a successful render: the image is the template-sized image
carrying the five drawing operations, and the glyph measurement was nonzero
(otherwise the `ZeroDivisionError` path would have produced no image). -/
lemma create_image_inv (env : RenderEnv) (p t : String) (w h : Nat) (r : RenderOutcome) (img : PILImage)
    (hd : env.templateDims p = some (w, h))
    (hr : create_image_with_text env p t = Except.ok r)
    (hi : r.image = some img) :
    img = { width := w, height := h,
            ops := drawOps (positionXTwice env w t) (wrappedTextOf env w t) (fontSizeOf w) } ∧
    totalGlyphW env w ≠ 0 := by
  rw [create_cases env p t w h hd] at hr
  generalize hD : drawOps (positionXTwice env w t) (wrappedTextOf env w t) (fontSizeOf w) = D at hr ⊢
  by_cases hf : env.fontOk = false
  · rw [if_pos hf] at hr
    injection hr with h2
    subst h2
    exact Option.noConfusion hi
  · rw [if_neg hf] at hr
    by_cases h0 : totalGlyphW env w = 0
    · rw [if_pos h0] at hr
      injection hr with h2
      subst h2
      exact Option.noConfusion hi
    · rw [if_neg h0] at hr
      by_cases h1 : charsPerLine env w = 0
      · rw [if_pos h1] at hr
        injection hr with h2
        subst h2
        exact Option.noConfusion hi
      · rw [if_neg h1] at hr
        injection hr with h2
        subst h2
        injection hi with h3
        subst h3
        exact ⟨rfl, h0⟩

/-! ### The `textwrap` loop: whole-word regime and long-chunk regime -/

lemma strAppend_data (a b : String) : (a ++ b).data = a.data ++ b.data := rfl

lemma strAppend_assoc (a b c : String) : a ++ b ++ c = a ++ (b ++ c) := by
  apply String.ext
  simp only [strAppend_data, List.append_assoc]

lemma strAppend_empty (a : String) : a ++ "" = a := by
  apply String.ext
  simp only [strAppend_data]
  exact List.append_nil _

lemma takeChunks_nil (width curLen : Nat) : takeChunks width curLen [] = ([], curLen, []) := rfl

lemma takeChunks_cons (width curLen : Nat) (c : String) (cs : List String) :
    takeChunks width curLen (c :: cs) =
      if curLen + c.length ≤ width then
        (c :: (takeChunks width (curLen + c.length) cs).1,
         (takeChunks width (curLen + c.length) cs).2.1,
         (takeChunks width (curLen + c.length) cs).2.2)
      else ([], curLen, c :: cs) := rfl

lemma lineWords_nil (width curLen : Nat) : lineWords width curLen [] = ([], curLen, []) := rfl

lemma lineWords_cons (width curLen : Nat) (w : String) (ws : List String) :
    lineWords width curLen (w :: ws) =
      if curLen + 1 + w.length ≤ width then
        (w :: (lineWords width (curLen + 1 + w.length) ws).1,
         (lineWords width (curLen + 1 + w.length) ws).2.1,
         (lineWords width (curLen + 1 + w.length) ws).2.2)
      else ([], curLen, w :: ws) := rfl

lemma inter_cons_cons (w w2 : String) (ws : List String) :
    List.intersperse " " (w :: w2 :: ws) = w :: " " :: List.intersperse " " (w2 :: ws) := rfl

/-- `specGreedyAux` emits the `greedyTake` line and recurses on its rest. -/
lemma specGreedyAux_eq (width : Nat) :
    ∀ (ws : List String) (cur : String) (curLen : Nat),
      specGreedyAux width cur curLen ws =
        (greedyTake width cur curLen ws).1 ::
          specGreedyWrap width (greedyTake width cur curLen ws).2 := by
  intro ws
  induction ws with
  | nil => intro cur curLen; rfl
  | cons w ws ih =>
    intro cur curLen
    by_cases h : curLen + 1 + w.length ≤ width
    · simp only [specGreedyAux, greedyTake, if_pos h]
      exact ih _ _
    · simp only [specGreedyAux, greedyTake, if_neg h]
      rfl

/-- The `greedyTake` line is the start string followed by the glued take of
`lineWords`, and its rest is `lineWords`' rest. -/
lemma greedyTake_eq (width : Nat) :
    ∀ (ws : List String) (cur : String) (curLen : Nat),
      greedyTake width cur curLen ws =
        (cur ++ glueStr (lineWords width curLen ws).1, (lineWords width curLen ws).2.2) := by
  intro ws
  induction ws with
  | nil =>
    intro cur curLen
    simp only [greedyTake, lineWords, glueStr]
    rw [strAppend_empty]
  | cons w ws ih =>
    intro cur curLen
    by_cases h : curLen + 1 + w.length ≤ width
    · simp only [greedyTake, lineWords, if_pos h]
      rw [ih]
      simp only [glueStr]
      rw [strAppend_assoc, strAppend_assoc]
    · simp only [greedyTake, lineWords, if_neg h, glueStr]
      rw [strAppend_empty]

lemma joinStr_glueChunks : ∀ (ws : List String), joinStr (glueChunks ws) = glueStr ws := by
  intro ws
  induction ws with
  | nil => rfl
  | cons w ws ih =>
    simp only [glueChunks, joinStr, glueStr]
    rw [ih]

lemma lineWords_taken_subset (width : Nat) :
    ∀ (ws : List String) (curLen : Nat) (x : String),
      x ∈ (lineWords width curLen ws).1 → x ∈ ws := by
  intro ws
  induction ws with
  | nil => intro curLen x hx; simp [lineWords] at hx
  | cons w ws ih =>
    intro curLen x hx
    by_cases h : curLen + 1 + w.length ≤ width
    · simp only [lineWords, if_pos h, List.mem_cons] at hx
      rcases hx with rfl | hx
      · exact List.mem_cons_self _ _
      · exact List.mem_cons_of_mem _ (ih _ x hx)
    · simp only [lineWords, if_neg h, List.not_mem_nil] at hx

lemma lineWords_rest_subset (width : Nat) :
    ∀ (ws : List String) (curLen : Nat) (x : String),
      x ∈ (lineWords width curLen ws).2.2 → x ∈ ws := by
  intro ws
  induction ws with
  | nil => intro curLen x hx; simp [lineWords] at hx
  | cons w ws ih =>
    intro curLen x hx
    by_cases h : curLen + 1 + w.length ≤ width
    · simp only [lineWords, if_pos h] at hx
      exact List.mem_cons_of_mem _ (ih _ x hx)
    · simpa only [lineWords, if_neg h] using hx

lemma lineWords_rest_length (width : Nat) :
    ∀ (ws : List String) (curLen : Nat),
      (lineWords width curLen ws).2.2.length ≤ ws.length := by
  intro ws
  induction ws with
  | nil => intro curLen; simp [lineWords]
  | cons w ws ih =>
    intro curLen
    by_cases h : curLen + 1 + w.length ≤ width
    · simp only [lineWords, if_pos h, List.length_cons]
      exact Nat.le_succ_of_le (ih _)
    · simp [lineWords, if_neg h]

/-- Prepending a taken word commutes with `contAssemble`. -/
lemma contAssemble_cons (width : Nat) (w : String) (r : List String × Nat × List String) :
    contAssemble width (w :: r.1, r.2.1, r.2.2) =
      (" " :: w :: (contAssemble width r).1,
       (contAssemble width r).2.1, (contAssemble width r).2.2) := by
  unfold contAssemble
  dsimp only
  cases hr : r.2.2 with
  | nil => simp [glueChunks]
  | cons a l =>
    by_cases h : r.2.1 + 1 ≤ width <;> simp [glueChunks, h]

/-- The chunk-level inner loop on a mid-line continuation (next chunk a
space, then the remaining words interspersed) is `contAssemble` of the
word-level take. -/
lemma takeChunks_inter (width : Nat) :
    ∀ (ws : List String) (L : Nat), ws ≠ [] →
      takeChunks width L (" " :: List.intersperse " " ws) =
        contAssemble width (lineWords width L ws) := by
  intro ws
  induction ws with
  | nil => intro L h; exact absurd rfl h
  | cons w ws ih =>
    intro L _
    have e1 : (" " : String).length = 1 := rfl
    cases ws with
    | nil =>
      rw [show List.intersperse " " [w] = [w] from rfl]
      rw [takeChunks_cons, e1]
      by_cases hsp : L + 1 ≤ width
      · rw [if_pos hsp, takeChunks_cons]
        by_cases h1 : L + 1 + w.length ≤ width
        · rw [if_pos h1, takeChunks_nil, lineWords_cons, if_pos h1, lineWords_nil]
          rfl
        · rw [if_neg h1, lineWords_cons, if_neg h1]
          have hca : contAssemble width ([], L, [w]) =
              ([" "], L + 1, List.intersperse " " [w]) := by
            unfold contAssemble
            dsimp only
            rw [if_pos hsp]
            rfl
          rw [hca]
          rfl
      · rw [if_neg hsp, lineWords_cons,
          if_neg (show ¬ L + 1 + w.length ≤ width by omega)]
        have hca : contAssemble width ([], L, [w]) =
            ([], L, " " :: List.intersperse " " [w]) := by
          unfold contAssemble
          dsimp only
          rw [if_neg hsp]
          rfl
        rw [hca]
        rfl
    | cons w2 ws2 =>
      rw [inter_cons_cons]
      rw [takeChunks_cons, e1]
      by_cases hsp : L + 1 ≤ width
      · rw [if_pos hsp, takeChunks_cons]
        by_cases h1 : L + 1 + w.length ≤ width
        · rw [if_pos h1]
          rw [lineWords_cons, if_pos h1]
          rw [contAssemble_cons]
          rw [ih (L + 1 + w.length) (by simp)]
        · rw [if_neg h1, lineWords_cons, if_neg h1]
          have hca : contAssemble width ([], L, w :: w2 :: ws2) =
              ([" "], L + 1, List.intersperse " " (w :: w2 :: ws2)) := by
            unfold contAssemble
            dsimp only
            rw [if_pos hsp]
            rfl
          rw [hca, inter_cons_cons]
      · rw [if_neg hsp, lineWords_cons,
          if_neg (show ¬ L + 1 + w.length ≤ width by omega)]
        have hca : contAssemble width ([], L, w :: w2 :: ws2) =
            ([], L, " " :: List.intersperse " " (w :: w2 :: ws2)) := by
          unfold contAssemble
          dsimp only
          rw [if_neg hsp]
          rfl
        rw [hca, inter_cons_cons]

/-- The chunk-level inner loop on a fresh line whose first chunk is a word
that fits. -/
lemma takeChunks_fresh (width : Nat) (w : String) (ws : List String) (hw : w.length ≤ width) :
    takeChunks width 0 (List.intersperse " " (w :: ws)) =
      (w :: (contAssemble width (lineWords width w.length ws)).1,
       (contAssemble width (lineWords width w.length ws)).2.1,
       (contAssemble width (lineWords width w.length ws)).2.2) := by
  cases ws with
  | nil =>
    rw [show List.intersperse " " [w] = [w] from rfl]
    rw [takeChunks_cons, if_pos (show 0 + w.length ≤ width by omega), Nat.zero_add,
      takeChunks_nil, lineWords_nil]
    rfl
  | cons w2 ws2 =>
    rw [inter_cons_cons]
    rw [takeChunks_cons, if_pos (show 0 + w.length ≤ width by omega), Nat.zero_add]
    rw [takeChunks_inter width (w2 :: ws2) w.length (by simp)]

/-- A line starting with a word and continuing with glued words ends in a
word, which is not a whitespace chunk. -/
lemma glue_last_not_ws :
    ∀ (tws : List String) (w : String), isWsChunk w = false →
      (∀ x ∈ tws, isWsChunk x = false) →
      ∃ l, (w :: glueChunks tws).getLast? = some l ∧ isWsChunk l = false := by
  intro tws
  induction tws with
  | nil => intro w hw _; exact ⟨w, rfl, hw⟩
  | cons x xs ih =>
    intro w hw hall
    obtain ⟨l, hl1, hl2⟩ := ih x (hall x (List.mem_cons_self _ _))
      (fun y hy => hall y (List.mem_cons_of_mem _ hy))
    refine ⟨l, ?_, hl2⟩
    simp only [glueChunks]
    rw [List.getLast?_cons_cons, List.getLast?_cons_cons]
    exact hl1

lemma dropTrailingWs_not_ws (line : List String) (l : String)
    (h1 : line.getLast? = some l) (h2 : isWsChunk l = false) :
    dropTrailingWs line = line := by
  unfold dropTrailingWs
  rw [h1]
  simp [h2]

lemma dropTrailingWs_concat_ws (line : List String) :
    dropTrailingWs (line ++ [" "]) = line := by
  unfold dropTrailingWs
  rw [List.getLast?_concat]
  simp only [show isWsChunk " " = true from rfl, if_pos]
  exact List.dropLast_concat

lemma strNonempty_length (w : String) (h : w ≠ "") : 1 ≤ w.length := by
  by_contra hc
  apply h
  apply String.ext
  have hdl : w.length = w.data.length := rfl
  exact List.length_eq_zero.mp (by omega)

/-- One full line of `_wrap_chunks` on single-space-separated words, each
fitting the width: the emitted chunks are the first word followed by the
glued `lineWords` take, and the remaining chunks are `contAssemble`'s
rest. -/
lemma lineCore_inter (width : Nat) (w : String) (ws : List String)
    (hall : ∀ x ∈ w :: ws, x ≠ "" ∧ isWsChunk x = false ∧ x.length ≤ width) :
    lineCore width (List.intersperse " " (w :: ws)) =
      (w :: glueChunks (lineWords width w.length ws).1,
       (contAssemble width (lineWords width w.length ws)).2.2) := by
  obtain ⟨hw_ne, hw_nws, hw_le⟩ := hall w (List.mem_cons_self _ _)
  have h1w : 1 ≤ width := le_trans (strNonempty_length w hw_ne) hw_le
  have htaken : ∀ x ∈ (lineWords width w.length ws).1, isWsChunk x = false :=
    fun x hx => (hall x (List.mem_cons_of_mem _ (lineWords_taken_subset width ws _ x hx))).2.1
  unfold lineCore
  rw [takeChunks_fresh width w ws hw_le]
  cases hr : (lineWords width w.length ws).2.2 with
  | nil =>
    have hca : contAssemble width (lineWords width w.length ws) =
        (glueChunks (lineWords width w.length ws).1, (lineWords width w.length ws).2.1, []) := by
      unfold contAssemble
      rw [hr]
    rw [hca]
    have hlb : longBreak width (w :: glueChunks (lineWords width w.length ws).1,
        (lineWords width w.length ws).2.1, []) =
        (w :: glueChunks (lineWords width w.length ws).1, []) := rfl
    dsimp only
    rw [hlb]
    obtain ⟨l, hl1, hl2⟩ := glue_last_not_ws (lineWords width w.length ws).1 w hw_nws htaken
    dsimp only
    rw [dropTrailingWs_not_ws _ l hl1 hl2]
  | cons r rs =>
    have hrin : r ∈ ws :=
      lineWords_rest_subset width ws w.length r (by rw [hr]; exact List.mem_cons_self _ _)
    have hrle : r.length ≤ width := (hall r (List.mem_cons_of_mem _ hrin)).2.2
    by_cases hfit : (lineWords width w.length ws).2.1 + 1 ≤ width
    · have hca : contAssemble width (lineWords width w.length ws) =
          (glueChunks (lineWords width w.length ws).1 ++ [" "],
           (lineWords width w.length ws).2.1 + 1, List.intersperse " " (r :: rs)) := by
        unfold contAssemble
        rw [hr, if_pos hfit]
      rw [hca]
      obtain ⟨tail, htail⟩ : ∃ tail, List.intersperse " " (r :: rs) = r :: tail := by
        cases rs <;> exact ⟨_, rfl⟩
      rw [htail]
      have hlb : longBreak width (w :: (glueChunks (lineWords width w.length ws).1 ++ [" "]),
          (lineWords width w.length ws).2.1 + 1, r :: tail) =
          (w :: (glueChunks (lineWords width w.length ws).1 ++ [" "]), r :: tail) := by
        unfold longBreak
        dsimp only
        rw [if_neg (show ¬ width < r.length by omega)]
      dsimp only
      rw [hlb]
      dsimp only
      rw [show w :: (glueChunks (lineWords width w.length ws).1 ++ [" "]) =
            (w :: glueChunks (lineWords width w.length ws).1) ++ [" "] from rfl]
      rw [dropTrailingWs_concat_ws]
    · have hca : contAssemble width (lineWords width w.length ws) =
          (glueChunks (lineWords width w.length ws).1,
           (lineWords width w.length ws).2.1, " " :: List.intersperse " " (r :: rs)) := by
        unfold contAssemble
        rw [hr, if_neg hfit]
      rw [hca]
      have hlb : longBreak width (w :: glueChunks (lineWords width w.length ws).1,
          (lineWords width w.length ws).2.1, " " :: List.intersperse " " (r :: rs)) =
          (w :: glueChunks (lineWords width w.length ws).1,
           " " :: List.intersperse " " (r :: rs)) := by
        unfold longBreak
        dsimp only
        rw [if_neg (show ¬ width < (" " : String).length from by
          rw [show (" " : String).length = 1 from rfl]; omega)]
      dsimp only
      rw [hlb]
      obtain ⟨l, hl1, hl2⟩ := glue_last_not_ws (lineWords width w.length ws).1 w hw_nws htaken
      dsimp only
      rw [dropTrailingWs_not_ws _ l hl1 hl2]

lemma wrapLoop_nil (width : Nat) : ∀ (fuel : Nat) (started : Bool),
    wrapLoop width fuel started [] = [] := by
  intro fuel started
  cases fuel <;> rfl

/-- The outer `_wrap_chunks` loop on single-space-separated words that all
fit the width is the spec's greedy whole-word wrap.  `pre` records a leading
space chunk left over from the previous line (then a line has already been
emitted, so `drop_whitespace` deletes it). -/
lemma wrapLoop_inter (width : Nat) :
    ∀ (fuel : Nat) (ws : List String) (started pre : Bool),
      (∀ x ∈ ws, x ≠ "" ∧ isWsChunk x = false ∧ x.length ≤ width) →
      (pre = true → started = true ∧ ws ≠ []) →
      ws.length + 1 ≤ fuel →
      wrapLoop width fuel started
          ((if pre then [" "] else []) ++ List.intersperse " " ws) =
        specGreedyWrap width ws := by
  intro fuel
  induction fuel with
  | zero => intro ws started pre _ _ hf; omega
  | succ f ih =>
    intro ws started pre hall hpre hf
    cases ws with
    | nil =>
      cases pre with
      | false => rfl
      | true => exact absurd rfl (hpre rfl).2
    | cons w ws2 =>
      have hw := hall w (List.mem_cons_self _ _)
      have hdrop : dropLeadWs started
          ((if pre then [" "] else []) ++ List.intersperse " " (w :: ws2)) =
          List.intersperse " " (w :: ws2) := by
        cases pre with
        | true =>
          rw [(hpre rfl).1]
          simp [dropLeadWs, show isWsChunk " " = true from rfl]
        | false =>
          cases ws2 with
          | nil => simp [List.intersperse, dropLeadWs, hw.2.1]
          | cons a l => simp [List.intersperse, dropLeadWs, hw.2.1]
      obtain ⟨c, cs, hcs⟩ :
          ∃ c cs, (if pre then [" "] else []) ++ List.intersperse " " (w :: ws2) = c :: cs := by
        cases pre with
        | true => exact ⟨_, _, rfl⟩
        | false => cases ws2 <;> exact ⟨_, _, rfl⟩
      have hstep : wrapLoop width (f + 1) started (c :: cs) =
          (if (lineCore width (dropLeadWs started (c :: cs))).1.isEmpty then
            wrapLoop width f started (lineCore width (dropLeadWs started (c :: cs))).2
          else joinStr (lineCore width (dropLeadWs started (c :: cs))).1 ::
            wrapLoop width f true (lineCore width (dropLeadWs started (c :: cs))).2) := rfl
      rw [hcs, hstep, ← hcs, hdrop]
      rw [lineCore_inter width w ws2 hall]
      dsimp only
      simp only [List.isEmpty_cons, Bool.false_eq_true, if_false]
      have hjoin : joinStr (w :: glueChunks (lineWords width w.length ws2).1) =
          (greedyTake width w w.length ws2).1 := by
        rw [greedyTake_eq]
        simp only [joinStr]
        rw [joinStr_glueChunks]
      have hspec : specGreedyWrap width (w :: ws2) =
          (greedyTake width w w.length ws2).1 ::
            specGreedyWrap width (greedyTake width w w.length ws2).2 := by
        show specGreedyAux width w w.length ws2 = _
        exact specGreedyAux_eq width ws2 w w.length
      have hgrest : (greedyTake width w w.length ws2).2 = (lineWords width w.length ws2).2.2 := by
        rw [greedyTake_eq]
      rw [hspec, hjoin, hgrest]
      congr 1
      have hall2 : ∀ x ∈ (lineWords width w.length ws2).2.2,
          x ≠ "" ∧ isWsChunk x = false ∧ x.length ≤ width :=
        fun x hx => hall x (List.mem_cons_of_mem _ (lineWords_rest_subset width ws2 _ x hx))
      have hlen2 : (lineWords width w.length ws2).2.2.length + 1 ≤ f := by
        have := lineWords_rest_length width ws2 w.length
        simp only [List.length_cons] at hf
        omega
      cases hr : (lineWords width w.length ws2).2.2 with
      | nil =>
        have hca : (contAssemble width (lineWords width w.length ws2)).2.2 = [] := by
          unfold contAssemble
          rw [hr]
        rw [hca, wrapLoop_nil]
        rfl
      | cons r rs =>
        by_cases hfit : (lineWords width w.length ws2).2.1 + 1 ≤ width
        · have hca : (contAssemble width (lineWords width w.length ws2)).2.2 =
              List.intersperse " " (r :: rs) := by
            unfold contAssemble
            rw [hr, if_pos hfit]
          rw [hca]
          have h2 := ih (r :: rs) true false (hr ▸ hall2) (by simp) (hr ▸ hlen2)
          have h3 : wrapLoop width f true (List.intersperse " " (r :: rs)) =
              specGreedyWrap width (r :: rs) := h2
          rw [h3]
        · have hca : (contAssemble width (lineWords width w.length ws2)).2.2 =
              " " :: List.intersperse " " (r :: rs) := by
            unfold contAssemble
            rw [hr, if_neg hfit]
          rw [hca]
          have h2 := ih (r :: rs) true true (hr ▸ hall2) (fun _ => ⟨rfl, by simp⟩) (hr ▸ hlen2)
          have h3 : wrapLoop width f true (" " :: List.intersperse " " (r :: rs)) =
              specGreedyWrap width (r :: rs) := h2
          rw [h3]

lemma length_le_intersperse (ws : List String) :
    ws.length ≤ (List.intersperse " " ws).length := by
  induction ws with
  | nil => simp
  | cons w ws ih =>
    cases ws with
    | nil => simp
    | cons a l =>
      rw [inter_cons_cons]
      simp only [List.length_cons] at ih ⊢
      omega

/-- `textwrap.fill` on a caption whose chunks are single-space-separated
words that each fit the width is the spec's greedy whole-word wrap. -/
lemma fill_eq_greedy (s : String) (width : Nat) (ws : List String)
    (hc : chunksOf s = List.intersperse " " ws)
    (hall : ∀ x ∈ ws, x ≠ "" ∧ isWsChunk x = false ∧ x.length ≤ width) :
    textwrapFill s width = String.intercalate "\n" (specGreedyWrap width ws) := by
  unfold textwrapFill
  rw [hc]
  have hlen := length_le_intersperse ws
  have h := wrapLoop_inter width (2 * s.length + 2 * (List.intersperse " " ws).length + 4)
    ws false false hall (by simp) (by omega)
  have h2 : wrapLoop width (2 * s.length + 2 * (List.intersperse " " ws).length + 4)
      false (List.intersperse " " ws) = specGreedyWrap width ws := h
  rw [h2]

lemma chopAux_congr (width : Nat) (hw : 1 ≤ width) :
    ∀ (f1 f2 : Nat) (cw : String), cw.length ≤ f1 → cw.length ≤ f2 →
      chopAux width f1 cw = chopAux width f2 cw := by
  intro f1
  induction f1 with
  | zero =>
    intro f2 cw h1 _
    have hdl : cw.length = cw.data.length := rfl
    have hcw : cw = "" := String.ext (List.length_eq_zero.mp (by omega))
    subst hcw
    cases f2 <;> simp [chopAux]
  | succ f ih =>
    intro f2 cw h1 h2
    cases f2 with
    | zero =>
      have hdl : cw.length = cw.data.length := rfl
      have hcw : cw = "" := String.ext (List.length_eq_zero.mp (by omega))
      subst hcw
      simp [chopAux]
    | succ g =>
      by_cases hle : cw.length ≤ width
      · simp only [chopAux, if_pos hle]
      · simp only [chopAux, if_neg hle]
        congr 1
        have hd : (strDrop cw width).length = cw.data.length - width := List.length_drop _ _
        have hdl : cw.length = cw.data.length := rfl
        exact ih g _ (by omega) (by omega)

lemma all_not_space_of_sub {l m : List Char} (h : l.all (fun c => !(c == ' ')) = true)
    (hsub : ∀ c ∈ m, c ∈ l) : m.all (fun c => !(c == ' ')) = true := by
  rw [List.all_eq_true] at h ⊢
  exact fun c hc => h c (hsub c hc)

lemma isWsChunk_false_of (cw : String) (hne : cw.data ≠ [])
    (hns : cw.data.all (fun c => !(c == ' ')) = true) : isWsChunk cw = false := by
  unfold isWsChunk
  cases hd : cw.data with
  | nil => exact absurd hd hne
  | cons c cs =>
    rw [hd] at hns
    simp only [List.all_cons, Bool.and_eq_true] at hns
    simp only [List.all_cons]
    cases hcc : (c == ' ') with
    | false => rfl
    | true =>
      rw [hcc] at hns
      simp at hns

/-- The outer loop on a single over-long whitespace-free chunk chops it into
width-sized pieces (`break_long_words` with no hyphen to break at). -/
lemma wrapLoop_single (width : Nat) (hwidth : 1 ≤ width) :
    ∀ (fuel : Nat) (cw : String) (started : Bool),
      cw.data ≠ [] → cw.data.all (fun c => !(c == ' ')) = true → cw.length ≤ fuel →
      wrapLoop width fuel started [cw] = chopAux width fuel cw := by
  intro fuel
  induction fuel with
  | zero =>
    intro cw started hne _ hf
    have hdl : cw.length = cw.data.length := rfl
    exact absurd (List.length_eq_zero.mp (by omega)) hne
  | succ f ih =>
    intro cw started hne hns hf
    have hnws : isWsChunk cw = false := isWsChunk_false_of cw hne hns
    have hstep : wrapLoop width (f + 1) started [cw] =
        (if (lineCore width (dropLeadWs started [cw])).1.isEmpty then
          wrapLoop width f started (lineCore width (dropLeadWs started [cw])).2
        else joinStr (lineCore width (dropLeadWs started [cw])).1 ::
          wrapLoop width f true (lineCore width (dropLeadWs started [cw])).2) := rfl
    have hdrop : dropLeadWs started [cw] = [cw] := by
      simp [dropLeadWs, hnws]
    rw [hstep, hdrop]
    by_cases hle : cw.length ≤ width
    · have h1 : takeChunks width 0 [cw] = ([cw], 0 + cw.length, []) := by
        rw [takeChunks_cons, if_pos (show 0 + cw.length ≤ width by omega), takeChunks_nil]
      have hcore : lineCore width [cw] = ([cw], []) := by
        unfold lineCore
        rw [h1]
        have h2 : longBreak width ([cw], 0 + cw.length, []) = ([cw], []) := rfl
        rw [h2]
        dsimp only
        rw [dropTrailingWs_not_ws [cw] cw rfl hnws]
      rw [hcore]
      dsimp only
      simp only [List.isEmpty_cons, Bool.false_eq_true, if_false]
      rw [wrapLoop_nil]
      have hj : joinStr [cw] = cw := by
        simp only [joinStr]
        exact strAppend_empty cw
      rw [hj]
      simp only [chopAux, if_pos hle]
      rw [show cw.data.isEmpty = false from by
        cases hd : cw.data with
        | nil => exact absurd hd hne
        | cons a l => rfl]
      rfl
    · have htake_ne : (strTake cw width).data ≠ [] := by
        show cw.data.take width ≠ []
        intro hcon
        have := congrArg List.length hcon
        simp only [List.length_take, List.length_nil] at this
        have hdl : cw.length = cw.data.length := rfl
        omega
      have htake_ns : (strTake cw width).data.all (fun c => !(c == ' ')) = true :=
        all_not_space_of_sub hns (fun c hc => List.take_subset _ _ hc)
      have htake : isWsChunk (strTake cw width) = false :=
        isWsChunk_false_of _ htake_ne htake_ns
      have h1 : takeChunks width 0 [cw] = ([], 0, [cw]) := by
        rw [takeChunks_cons, if_neg (show ¬ 0 + cw.length ≤ width by omega)]
      have h2 : longBreak width (([] : List String), 0, [cw]) =
          ([strTake cw width], [strDrop cw width]) := by
        unfold longBreak
        dsimp only
        rw [if_pos (show width < cw.length by omega)]
        rw [if_neg (show ¬ width < 1 by omega)]
        rw [Nat.sub_zero]
        rfl
      have hcore : lineCore width [cw] = ([strTake cw width], [strDrop cw width]) := by
        unfold lineCore
        rw [h1, h2]
        dsimp only
        rw [dropTrailingWs_not_ws [strTake cw width] (strTake cw width) rfl htake]
      rw [hcore]
      dsimp only
      simp only [List.isEmpty_cons, Bool.false_eq_true, if_false]
      have hdne : (strDrop cw width).data ≠ [] := by
        show cw.data.drop width ≠ []
        intro hcon
        have := congrArg List.length hcon
        simp only [List.length_drop, List.length_nil] at this
        have hdl : cw.length = cw.data.length := rfl
        omega
      have hdns : (strDrop cw width).data.all (fun c => !(c == ' ')) = true :=
        all_not_space_of_sub hns (fun c hc => List.drop_subset _ _ hc)
      have hdlen : (strDrop cw width).length ≤ f := by
        have h3 : (strDrop cw width).length = cw.data.length - width := List.length_drop _ _
        have hdl : cw.length = cw.data.length := rfl
        omega
      rw [ih (strDrop cw width) true hdne hdns hdlen]
      have hj : joinStr [strTake cw width] = strTake cw width := by
        simp only [joinStr]
        exact strAppend_empty _
      rw [hj]
      simp only [chopAux, if_neg hle]

/-- `textwrap.fill` on a single over-long whitespace-free chunk breaks it
into width-sized pieces. -/
lemma fill_long_chunk (cw : String) (width : Nat)
    (h0 : cw.data ≠ []) (h1 : cw.data.all (fun c => !(c == ' ')) = true)
    (hc : chunksOf cw = [cw]) (hw : 1 ≤ width) :
    textwrapFill cw width = String.intercalate "\n" (chopPieces width cw) := by
  unfold textwrapFill
  rw [hc]
  rw [wrapLoop_single width hw _ cw false h0 h1
    (by simp only [List.length_cons, List.length_nil]; omega)]
  unfold chopPieces
  rw [chopAux_congr width hw _ cw.length cw
    (by simp only [List.length_cons, List.length_nil]; omega) (le_refl _)]

/-! ### Claims -/

/-- C1 counterexample: the claim says the renderer is not invoked for ANY
caption that indicates an error, including the empty-topic prompt-the-user
string.  But on an empty topic the caption is "Please enter a topic!", which
is nonempty and does not contain the substring "Error", so the line 149 gate
`if caption and "Error" not in caption` passes and the renderer IS invoked. -/
theorem C1_counterexample :
    (generate_caption (fun _ => Except.error "down") "").caption = "Please enter a topic!" ∧
    (on_generate (fun _ => Except.error "down") envA "t.png" "").rendererInvoked = true :=
  ⟨rfl, rfl⟩

/-- C1 (amended): on trigger the shell invokes the caption generator and then
invokes the renderer exactly when the caption is nonempty and does not
contain the substring "Error"; in particular the generation-failure string
"Error generating text." stops the pipeline before rendering, but the
empty-topic prompt-the-user string does not. -/
theorem C1_amended (model : String → Except String String) (env : RenderEnv) (p topic : String) :
    ((on_generate model env p topic).rendererInvoked =
      (((generate_caption model topic).caption != "") &&
        !(strContains (generate_caption model topic).caption "Error"))) ∧
    strContains "Error generating text." "Error" = true := by
  constructor
  · unfold on_generate
    by_cases hb : (((generate_caption model topic).caption != "") &&
        !(strContains (generate_caption model topic).caption "Error")) = true
    · rw [if_pos hb, hb]
      cases hc : create_image_with_text env p (generate_caption model topic).caption with
      | ok rr =>
        obtain ⟨oi, msgs⟩ := rr
        cases oi <;> rfl
      | error e => rfl
    · rw [if_neg hb]
      have hb2 : (((generate_caption model topic).caption != "") &&
          !(strContains (generate_caption model topic).caption "Error")) = false := by
        revert hb
        cases (((generate_caption model topic).caption != "") &&
          !(strContains (generate_caption model topic).caption "Error")) <;> simp
      rw [hb2]
  · rfl

/-- C2: for every template image and caption string, when rendering succeeds
the output image has exactly the template's pixel width and height. -/
theorem C2_dims (env : RenderEnv) (p t : String) (w h : Nat) (r : RenderOutcome) (img : PILImage)
    (hd : env.templateDims p = some (w, h))
    (hr : create_image_with_text env p t = Except.ok r)
    (hi : r.image = some img) :
    img.width = w ∧ img.height = h := by
  rw [create_cases env p t w h hd] at hr
  by_cases hf : env.fontOk = false
  · rw [if_pos hf] at hr
    injection hr with h2
    subst h2
    exact Option.noConfusion hi
  · rw [if_neg hf] at hr
    by_cases h0 : totalGlyphW env w = 0
    · rw [if_pos h0] at hr
      injection hr with h2
      subst h2
      exact Option.noConfusion hi
    · rw [if_neg h0] at hr
      by_cases h1 : charsPerLine env w = 0
      · rw [if_pos h1] at hr
        injection hr with h2
        subst h2
        exact Option.noConfusion hi
      · rw [if_neg h1] at hr
        injection hr with h2
        subst h2
        injection hi with h3
        subst h3
        exact ⟨rfl, rfl⟩

/-- C2 witness: a successful render of "hi" on the 300x200 template of
`envA` yields a 300x200 image. -/
theorem C2_witness :
    (⟨300, 200, drawOps (positionXTwice envA 300 "hi") (wrappedTextOf envA 300 "hi") (fontSizeOf 300)⟩ : PILImage).width = 300 ∧
    (⟨300, 200, drawOps (positionXTwice envA 300 "hi") (wrappedTextOf envA 300 "hi") (fontSizeOf 300)⟩ : PILImage).height = 200 :=
  C2_dims envA "t.png" "hi" 300 200
    ⟨some ⟨300, 200, drawOps (positionXTwice envA 300 "hi") (wrappedTextOf envA 300 "hi") (fontSizeOf 300)⟩, []⟩
    ⟨300, 200, drawOps (positionXTwice envA 300 "hi") (wrappedTextOf envA 300 "hi") (fontSizeOf 300)⟩
    rfl rfl rfl

/-- C3: for the empty topic, `generate_caption` returns the fixed
prompt-the-user message, calls the model zero times, and shows no error. -/
theorem C3_empty_topic (model : String → Except String String) :
    generate_caption model "" =
      { caption := "Please enter a topic!", modelCalls := 0, errorsShown := [] } := rfl

set_option maxRecDepth 8000 in
/-- C4 counterexample: the claim says the returned value never includes the
literal instructional prompt.  But `replace` removes occurrences in one
left-to-right pass, and removal can reassemble the prompt: when the model
returns `P.take 1 ++ P ++ P.drop 1` for the prompt `P` of topic "x", the
occurrence of `P` at index 1 is removed and the remainder is exactly `P`,
so the returned caption equals (hence contains) the instructional prompt. -/
theorem C4_counterexample :
    (generate_caption (fun _ => Except.ok ((fullPrompt "x").take 1 ++ fullPrompt "x" ++ (fullPrompt "x").drop 1)) "x").caption
        = fullPrompt "x" ∧
    strContains
      (generate_caption (fun _ => Except.ok ((fullPrompt "x").take 1 ++ fullPrompt "x" ++ (fullPrompt "x").drop 1)) "x").caption
      (fullPrompt "x") = true :=
  ⟨rfl, rfl⟩

/-- C4 (amended): for every non-empty topic on which generation succeeds,
`generate_caption` returns the raw output with every left-to-right
non-overlapping occurrence of the instructional prompt removed and
surrounding whitespace trimmed — removal that is not guaranteed complete,
since deleting an occurrence can reassemble the prompt text — and if the
post-processed string is empty it returns the fixed fallback
"AI could not generate a caption."; the model is called exactly once. -/
theorem C4_amended (model : String → Except String String) (topic raw : String)
    (h0 : topic ≠ "") (hm : model (fullPrompt topic) = Except.ok raw) :
    (generate_caption model topic).caption =
      (if pyStrip (removeOccs raw (fullPrompt topic)) = "" then "AI could not generate a caption."
       else pyStrip (removeOccs raw (fullPrompt topic))) ∧
    (generate_caption model topic).modelCalls = 1 := by
  unfold generate_caption
  rw [if_neg h0, hm]
  exact ⟨rfl, rfl⟩

/-- C4 witness: topic "dogs" with raw model output "  woof  " yields the
trimmed caption and one model call. -/
theorem C4_witness :
    (generate_caption (fun _ => Except.ok "  woof  ") "dogs").caption =
      (if pyStrip (removeOccs "  woof  " (fullPrompt "dogs")) = "" then "AI could not generate a caption."
       else pyStrip (removeOccs "  woof  " (fullPrompt "dogs"))) ∧
    (generate_caption (fun _ => Except.ok "  woof  ") "dogs").modelCalls = 1 :=
  C4_amended (fun _ => Except.ok "  woof  ") "dogs" "  woof  " (by decide) rfl

/-- C5: for every non-empty topic, when the generation capability raises,
`generate_caption` returns the fixed error string, shows the failure as an
error banner, and calls the capability exactly once (no retry). -/
theorem C5_failure (model : String → Except String String) (topic e : String)
    (h0 : topic ≠ "") (hm : model (fullPrompt topic) = Except.error e) :
    generate_caption model topic =
      { caption := "Error generating text.", modelCalls := 1,
        errorsShown := ["Error during AI caption generation: " ++ e] } := by
  unfold generate_caption
  rw [if_neg h0, hm]

/-- C5 witness: topic "cats" with a raising model. -/
theorem C5_witness :
    generate_caption (fun _ => Except.error "boom") "cats" =
      { caption := "Error generating text.", modelCalls := 1,
        errorsShown := ["Error during AI caption generation: " ++ "boom"] } :=
  C5_failure (fun _ => Except.error "boom") "cats" "boom" (by decide) rfl

/-- C6 counterexample: the claim describes the wrap as accumulating WHOLE
words.  With `envB` (budget `chars_per_line = 5`) and the single-word caption
"abcdefgh", the code renders the word broken at the budget ("ABCDE\nFGH",
Python `textwrap`'s `break_long_words`), while the claim's whole-word greedy
wrap on the caption's single chunk would keep "ABCDEFGH" intact on one
line. -/
theorem C6_counterexample :
    mainText (create_image_with_text envB "t.png" "abcdefgh") = some "ABCDE\nFGH" ∧
    chunksOf (pyUpper "abcdefgh") = ["ABCDEFGH"] ∧
    String.intercalate "\n" (specGreedyWrap (charsPerLine envB 100) ["ABCDEFGH"])
        = "ABCDEFGH" ∧
    ("ABCDE\nFGH" : String) ≠ "ABCDEFGH" :=
  ⟨rfl, rfl, rfl, by decide⟩

/-- C6 (amended): the renderer upper-cases the caption before layout, derives
the column budget as `(image_width * 0.9) / average_glyph_width` with the
average taken over the measured widths of the 26 uppercase Latin letters at
font size `⌊image_width / 18⌋`, and wraps the upper-cased caption to that
budget with `textwrap.fill` (first conjunct, on the caption domain where the
`textwrap` model is character-exact); that wrap is the greedy whole-word
line fill whenever the chunked caption is single-space-separated words that
each fit the budget (second conjunct), but a single word longer than the
budget is broken into budget-sized pieces — Python's `break_long_words` —
rather than kept whole (third conjunct). -/
theorem C6_layout :
    (∀ (env : RenderEnv) (p t : String) (w h : Nat) (r : RenderOutcome) (img : PILImage),
        wrapExact t = true →
        env.templateDims p = some (w, h) →
        create_image_with_text env p t = Except.ok r → r.image = some img →
        (∀ op ∈ img.ops, op.text = textwrapFill (pyUpper t) (charsPerLine env w)) ∧
        (charsPerLine env w : ℤ) = ⌊((w : ℚ) * (9 / 10)) / ((totalGlyphW env w : ℚ) / 26)⌋ ∧
        fontSizeOf w = w / 18) ∧
    (∀ (s : String) (width : Nat) (ws : List String),
        chunksOf s = List.intersperse " " ws →
        (∀ x ∈ ws, x ≠ "" ∧ isWsChunk x = false ∧ x.length ≤ width) →
        textwrapFill s width = String.intercalate "\n" (specGreedyWrap width ws)) ∧
    (∀ (cw : String) (width : Nat),
        cw.data ≠ [] → cw.data.all (fun c => !(c == ' ')) = true →
        chunksOf cw = [cw] → 1 ≤ width →
        textwrapFill cw width = String.intercalate "\n" (chopPieces width cw)) := by
  refine ⟨?_, fun s width ws hc hall => fill_eq_greedy s width ws hc hall,
    fun cw width h0 h1 hc hw => fill_long_chunk cw width h0 h1 hc hw⟩
  intro env p t w h r img _ hd hr hi
  rw [create_cases env p t w h hd] at hr
  by_cases hf : env.fontOk = false
  · rw [if_pos hf] at hr
    injection hr with h2
    subst h2
    exact Option.noConfusion hi
  · rw [if_neg hf] at hr
    by_cases h0 : totalGlyphW env w = 0
    · rw [if_pos h0] at hr
      injection hr with h2
      subst h2
      exact Option.noConfusion hi
    · rw [if_neg h0] at hr
      by_cases h1 : charsPerLine env w = 0
      · rw [if_pos h1] at hr
        injection hr with h2
        subst h2
        exact Option.noConfusion hi
      · rw [if_neg h1] at hr
        injection hr with h2
        subst h2
        injection hi with h3
        subst h3
        refine ⟨?_, charsPerLine_eq_floor env w h0, rfl⟩
        intro op hop
        simp only [drawOps, List.map_cons, List.map_nil, List.mem_append, List.mem_cons,
          List.not_mem_nil, or_false] at hop
        rcases hop with (rfl | rfl | rfl | rfl) | rfl <;> rfl

/-- C6 witness: the layout facts at `envA` (300-wide template, budget 27)
with caption "hi"; the whole-word wrap agreement on "HI THERE" (chunks
"HI", " ", "THERE") at width 10; and the budget-sized breaking of the single
over-long word "ABCDEFGH" at width 5. -/
theorem C6_witness :
    ((∀ op ∈ (⟨300, 200, drawOps (positionXTwice envA 300 "hi") (wrappedTextOf envA 300 "hi") (fontSizeOf 300)⟩ : PILImage).ops,
        op.text = textwrapFill (pyUpper "hi") (charsPerLine envA 300)) ∧
      (charsPerLine envA 300 : ℤ) = ⌊(((300 : ℕ) : ℚ) * (9 / 10)) / ((totalGlyphW envA 300 : ℚ) / 26)⌋ ∧
      fontSizeOf 300 = 300 / 18) ∧
    textwrapFill "HI THERE" 10 = String.intercalate "\n" (specGreedyWrap 10 ["HI", "THERE"]) ∧
    textwrapFill "ABCDEFGH" 5 = String.intercalate "\n" (chopPieces 5 "ABCDEFGH") :=
  ⟨C6_layout.1 envA "t.png" "hi" 300 200
      ⟨some ⟨300, 200, drawOps (positionXTwice envA 300 "hi") (wrappedTextOf envA 300 "hi") (fontSizeOf 300)⟩, []⟩
      ⟨300, 200, drawOps (positionXTwice envA 300 "hi") (wrappedTextOf envA 300 "hi") (fontSizeOf 300)⟩
      (by decide) rfl rfl rfl,
   C6_layout.2.1 "HI THERE" 10 ["HI", "THERE"] rfl (by decide),
   C6_layout.2.2 "ABCDEFGH" 5 (by decide) (by decide) rfl (by decide)⟩

set_option maxHeartbeats 1000000 in
/-- C7: a successful render draws exactly five operations: an outline pass of
the same wrapped text four times in black at pixel offsets (-2,-2), (-2,2),
(2,-2), (2,2) from the computed position (coordinates stored doubled, so an
offset of d pixels is `2 * d`), then the main pass in white at the computed
position, all with the same wrapped text and center alignment; the position
is `((image_width - text_block_width) / 2, 15)`, anchored 15 px from the
top. -/
theorem C7_outline (env : RenderEnv) (p t : String) (w h : Nat) (r : RenderOutcome) (img : PILImage)
    (hd : env.templateDims p = some (w, h))
    (hr : create_image_with_text env p t = Except.ok r)
    (hi : r.image = some img) :
    img.ops =
      [{ xTwice := positionXTwice env w t + 2 * (-2), yTwice := 2 * 15 + 2 * (-2),
         text := wrappedTextOf env w t, fontSize := fontSizeOf w, fill := "black", align := "center" },
       { xTwice := positionXTwice env w t + 2 * (-2), yTwice := 2 * 15 + 2 * 2,
         text := wrappedTextOf env w t, fontSize := fontSizeOf w, fill := "black", align := "center" },
       { xTwice := positionXTwice env w t + 2 * 2, yTwice := 2 * 15 + 2 * (-2),
         text := wrappedTextOf env w t, fontSize := fontSizeOf w, fill := "black", align := "center" },
       { xTwice := positionXTwice env w t + 2 * 2, yTwice := 2 * 15 + 2 * 2,
         text := wrappedTextOf env w t, fontSize := fontSizeOf w, fill := "black", align := "center" },
       { xTwice := positionXTwice env w t, yTwice := 2 * 15,
         text := wrappedTextOf env w t, fontSize := fontSizeOf w, fill := "white", align := "center" }] ∧
    DrawOp.xVal
        { xTwice := positionXTwice env w t, yTwice := 2 * 15,
          text := wrappedTextOf env w t, fontSize := fontSizeOf w, fill := "white", align := "center" }
      = ((w : ℚ) - (env.textW (fontSizeOf w) (wrappedTextOf env w t) : ℚ)) / 2 ∧
    DrawOp.yVal
        { xTwice := positionXTwice env w t, yTwice := 2 * 15,
          text := wrappedTextOf env w t, fontSize := fontSizeOf w, fill := "white", align := "center" }
      = 15 := by
  obtain ⟨himg, h0⟩ := create_image_inv env p t w h r img hd hr hi
  subst himg
  refine ⟨rfl, ?_, ?_⟩
  · have hx : DrawOp.xVal
        { xTwice := positionXTwice env w t, yTwice := 2 * 15,
          text := wrappedTextOf env w t, fontSize := fontSizeOf w, fill := "white", align := "center" }
        = ((positionXTwice env w t : ℤ) : ℚ) / 2 := rfl
    rw [hx]
    unfold positionXTwice
    push_cast
    ring
  · have hy : DrawOp.yVal
        { xTwice := positionXTwice env w t, yTwice := 2 * 15,
          text := wrappedTextOf env w t, fontSize := fontSizeOf w, fill := "white", align := "center" }
        = ((2 * 15 : ℤ) : ℚ) / 2 := rfl
    rw [hy]
    norm_num

/-- C7 witness: the main white pass of the successful render at `envA` sits
at the horizontally centered position and 15 px from the top. -/
theorem C7_witness :
    DrawOp.xVal
        { xTwice := positionXTwice envA 300 "hi", yTwice := 2 * 15,
          text := wrappedTextOf envA 300 "hi", fontSize := fontSizeOf 300,
          fill := "white", align := "center" }
      = (((300 : ℕ) : ℚ) - (envA.textW (fontSizeOf 300) (wrappedTextOf envA 300 "hi") : ℚ)) / 2 ∧
    DrawOp.yVal
        { xTwice := positionXTwice envA 300 "hi", yTwice := 2 * 15,
          text := wrappedTextOf envA 300 "hi", fontSize := fontSizeOf 300,
          fill := "white", align := "center" }
      = 15 :=
  ⟨(C7_outline envA "t.png" "hi" 300 200
      ⟨some ⟨300, 200, drawOps (positionXTwice envA 300 "hi") (wrappedTextOf envA 300 "hi") (fontSizeOf 300)⟩, []⟩
      ⟨300, 200, drawOps (positionXTwice envA 300 "hi") (wrappedTextOf envA 300 "hi") (fontSizeOf 300)⟩
      rfl rfl rfl).2.1,
   (C7_outline envA "t.png" "hi" 300 200
      ⟨some ⟨300, 200, drawOps (positionXTwice envA 300 "hi") (wrappedTextOf envA 300 "hi") (fontSizeOf 300)⟩, []⟩
      ⟨300, 200, drawOps (positionXTwice envA 300 "hi") (wrappedTextOf envA 300 "hi") (fontSizeOf 300)⟩
      rfl rfl rfl).2.2⟩

/-- C8: when the font asset fails to load at render time, the render shows
the font-error banner and produces no image (a single attempt, no retry),
and the shell always keeps displaying the original template. -/
theorem C8_font_missing :
    (∀ (env : RenderEnv) (p t : String) (w h : Nat),
        env.templateDims p = some (w, h) → env.fontOk = false →
        create_image_with_text env p t = Except.ok { image := none, errorsShown := [fontErrMsg] }) ∧
    (∀ (model : String → Except String String) (env : RenderEnv) (p topic : String),
        (on_generate model env p topic).templateDisplayed = true) := by
  constructor
  · intro env p t w h hd hf
    rw [create_cases env p t w h hd, if_pos hf]
  · intro model env p topic
    unfold on_generate
    by_cases hb : (((generate_caption model topic).caption != "") &&
        !(strContains (generate_caption model topic).caption "Error")) = true
    · rw [if_pos hb]
      cases hc : create_image_with_text env p (generate_caption model topic).caption with
      | ok rr =>
        obtain ⟨oi, msgs⟩ := rr
        cases oi <;> rfl
      | error e => rfl
    · rw [if_neg hb]

/-- C8 witness: `envC` has a missing font; the render returns no image with
the font banner, and the shell still displays the template. -/
theorem C8_witness :
    create_image_with_text envC "x.png" "HI" = Except.ok { image := none, errorsShown := [fontErrMsg] } ∧
    (on_generate (fun _ => Except.ok "hello") envC "x.png" "cats").templateDisplayed = true :=
  ⟨C8_font_missing.1 envC "x.png" "HI" 40 40 rfl rfl,
   C8_font_missing.2 (fun _ => Except.ok "hello") envC "x.png" "cats"⟩

/-- C9: the template catalog is exactly the directory's filenames whose names
end (case-sensitive suffix match) with "png", "jpg" or "jpeg", in directory
order; an empty match set fails fatally at startup, as does an absent
directory, so the application never proceeds without a template. -/
theorem C9_catalog :
    list_templates none = Except.error StartupError.directoryNotFound ∧
    (∀ (fs ts : List String), list_templates (some fs) = Except.ok ts →
        ts = fs.filter isTemplateFile ∧ ts ≠ [] ∧
        ∀ f, f ∈ ts ↔ (f ∈ fs ∧ isTemplateFile f = true)) ∧
    (∀ fs : List String, fs.filter isTemplateFile = [] →
        list_templates (some fs) = Except.error StartupError.catalogEmpty) := by
  refine ⟨rfl, ?_, ?_⟩
  · intro fs ts hok
    simp only [list_templates] at hok
    by_cases he : (fs.filter isTemplateFile).isEmpty = true
    · rw [if_pos he] at hok
      exact absurd hok (by simp)
    · rw [if_neg he] at hok
      injection hok with h2
      subst h2
      refine ⟨rfl, ?_, ?_⟩
      · intro hnil
        rw [hnil] at he
        exact he rfl
      · intro f
        exact List.mem_filter
  · intro fs hf
    simp only [list_templates]
    rw [hf]
    rfl

/-- C9 witness: a concrete listing is filtered to its png/jpg/jpeg suffixes
(including the dotless "cjpg" and excluding the uppercase "e.PNG"), and a
listing with no match fails with the catalog-empty error. -/
theorem C9_witness :
    (["a.png", "cjpg", "d.jpeg"] : List String)
        = (["a.png", "b.txt", "cjpg", "d.jpeg", "e.PNG"].filter isTemplateFile) ∧
    list_templates (some ["x.txt"]) = Except.error StartupError.catalogEmpty :=
  ⟨(C9_catalog.2.1 ["a.png", "b.txt", "cjpg", "d.jpeg", "e.PNG"] ["a.png", "cjpg", "d.jpeg"] rfl).1,
   C9_catalog.2.2 ["x.txt"] rfl⟩

/-- C10: for every environment, template path and caption string,
`create_image_with_text` never lets an exception escape: it always returns an
outcome (an image, or the no-image result on any internal failure). -/
theorem C10_no_exception (env : RenderEnv) (p t : String) :
    ∃ r : RenderOutcome, create_image_with_text env p t = Except.ok r := by
  unfold create_image_with_text
  cases renderBody env p t with
  | ok r => exact ⟨r, rfl⟩
  | error e => cases e <;> exact ⟨_, rfl⟩
